import Mathlib

/-
Verification of the Metal JIT kernel generator and dispatcher of
mlx/backend/metal/compiled.cpp (functions build_kernel and
Compiled::eval_gpu), as a shallow embedding in Lean.

Machine integers are modelled as Nat with explicit reductions modulo
2^32 or 2^64 where the C++ performs narrowing arithmetic.  The few
helpers this file depends on that live outside the source under
verification (the common backend and the kernel utility headers) are
either modelled from the spec (with a doc comment saying so) or taken
as explicit parameters.
-/

set_option maxRecDepth 8000

namespace Mlx

/-- Metadata of one tensor argument, mirroring exactly the fields of the
external array type that compiled.cpp reads: the stable identity, shape,
strides, the element-type string produced by get_type_string, the literal
text produced by print_constant for constant inputs, the data size used
for the wide-index decision, and the contiguity flag consulted by the
contiguity check. -/
structure Arr where
  id : Nat
  shape : List Nat
  strides : List Nat
  dtypeStr : String
  constLit : String
  dataSize : Nat
  contiguousFlag : Bool
  deriving DecidableEq

instance : Inhabited Arr := ⟨⟨0, [], [], "", "", 0, false⟩⟩

/-- Modelled from the spec: is_scalar is declared in the common backend
header, not under src/.  The spec treats scalars as inputs loaded once
into a register; a scalar is a rank-0 array. -/
def is_scalar (x : Arr) : Bool := x.shape.isEmpty

/-- Membership of an identity in the constant set, mirroring
constant_ids.find(x.id()) != constant_ids.end(). -/
def isConstantId (cids : List Nat) (x : Arr) : Bool := cids.contains x.id

/-- Modelled from the spec: NodeNamer lives in graph_utils.h, not under
src/.  The spec requires a deterministic injective naming of identities;
we name identity n as the string v followed by the decimal digits of n. -/
def nodeName (id : Nat) : String := "v" ++ Nat.repr id

/-- One node of the fused tape: its identity, element-type string, the
text its primitive prints, whether it is a pure static cast, and the
identities of its inputs. -/
structure TapeNode where
  id : Nat
  dtypeStr : String
  op : String
  isCast : Bool
  inIds : List Nat
  deriving DecidableEq

/-- One kernel parameter carrying an argument-buffer slot, in the order
build_kernel emits them (lines 44-84 of compiled.cpp). -/
inductive Param where
  | inBuf (id : Nat) (dtype : String)
  | inStridesBuf
  | outBuf (id : Nat) (dtype : String)
  | outStridesBuf
  | outShapeBuf
  | ndimScalar
  deriving DecidableEq

/-- The add_indices flag of build_kernel: set while emitting input
parameters, exactly when some non-constant input is neither scalar nor
on the contiguous path. -/
def add_indices_flag (inputs : List Arr) (cids : List Nat) (contiguous : Bool) : Bool :=
  !contiguous && inputs.any (fun x => !isConstantId cids x && !is_scalar x)

/-- The ordered parameter list of one generated kernel, mirroring
build_kernel lines 44-84: one buffer per non-constant input (scalar or
not, both branches emit the same buffer line), then the shared
in_strides buffer when add_indices was set, then one buffer per output,
then output_strides and output_shape when not contiguous, then the ndim
scalar when the rank is dynamic.  The slot of a parameter is its
position in this list, matching the cnt++ counter. -/
def kernelParams (inputs outputs : List Arr) (cids : List Nat)
    (contiguous dynamic_dims : Bool) : List Param :=
  ((inputs.filter (fun x => !isConstantId cids x)).map (fun x => Param.inBuf x.id x.dtypeStr))
  ++ (if add_indices_flag inputs cids contiguous then [Param.inStridesBuf] else [])
  ++ (outputs.map (fun x => Param.outBuf x.id x.dtypeStr))
  ++ (if !contiguous then [Param.outStridesBuf, Param.outShapeBuf] else [])
  ++ (if dynamic_dims then [Param.ndimScalar] else [])

/-- How one input is loaded into its tmp register, with the in_strides
offset the generator prints for the two non-contiguous forms. -/
inductive LoadSpec where
  | constL
  | scalarL
  | contigL
  | staticL (offset : Nat)
  | dynL (offset : Nat)
  deriving DecidableEq

/-- The load classification loop of build_kernel lines 122-156, with the
nc_in_count counter threaded through.  Both non-contiguous branches print
the offset nc_in_count * ndim, where ndim is the generation-time rank
argument of build_kernel. -/
def loadSpecsGo (cids : List Nat) (contiguous : Bool) (ndim : Nat)
    (dynamic_dims : Bool) : List Arr → Nat → List LoadSpec
  | [], _ => []
  | x :: rest, nc =>
    if isConstantId cids x then
      LoadSpec.constL :: loadSpecsGo cids contiguous ndim dynamic_dims rest nc
    else if is_scalar x then
      LoadSpec.scalarL :: loadSpecsGo cids contiguous ndim dynamic_dims rest nc
    else if contiguous then
      LoadSpec.contigL :: loadSpecsGo cids contiguous ndim dynamic_dims rest nc
    else if !dynamic_dims then
      LoadSpec.staticL (nc * ndim) :: loadSpecsGo cids contiguous ndim dynamic_dims rest (nc + 1)
    else
      LoadSpec.dynL (nc * ndim) :: loadSpecsGo cids contiguous ndim dynamic_dims rest (nc + 1)

/-- Load classification of every input of one generated kernel, in input
order, starting with nc_in_count = 0. -/
def loadSpecs (inputs : List Arr) (cids : List Nat) (contiguous : Bool)
    (ndim : Nat) (dynamic_dims : Bool) : List LoadSpec :=
  loadSpecsGo cids contiguous ndim dynamic_dims inputs 0

/-- Text of one parameter line at a given slot, as build_kernel prints it. -/
def paramLine (slot : Nat) : Param → String
  | Param.inBuf id dt =>
      "    device const " ++ dt ++ "* " ++ nodeName id
        ++ " [[buffer(" ++ Nat.repr slot ++ ")]],\n"
  | Param.inStridesBuf =>
      "    constant const size_t* in_strides [[buffer(" ++ Nat.repr slot ++ ")]],\n"
  | Param.outBuf id dt =>
      "    device " ++ dt ++ "* " ++ nodeName id
        ++ " [[buffer(" ++ Nat.repr slot ++ ")]],\n"
  | Param.outStridesBuf =>
      "    constant const size_t* output_strides [[buffer(" ++ Nat.repr slot ++ ")]],\n"
  | Param.outShapeBuf =>
      "    constant const int* output_shape [[buffer(" ++ Nat.repr slot ++ ")]],\n"
  | Param.ndimScalar =>
      "    constant const int& ndim [[buffer(" ++ Nat.repr slot ++ ")]],\n"

/-- Parameter lines, slots counting up from the given start. -/
def paramsTextGo : List Param → Nat → String
  | [], _ => ""
  | p :: rest, slot => paramLine slot p ++ paramsTextGo rest (slot + 1)

/-- The kernel prologue lines 41-42. -/
def kernelHeader (kernel_name : String) : String :=
  "[[host_name(\"" ++ kernel_name ++ "\")]]\n[[kernel]] void " ++ kernel_name ++ "(\n"

/-- The fixed grid-position parameters and the opening brace, lines 86-88. -/
def posGridText : String :=
  "    uint3 pos [[thread_position_in_grid]],\n    uint3 grid [[threads_per_grid]]) \x7b\n"

/-- The linear-index line, lines 89-96: 64-bit for the wide-index
contiguous kernel, 32-bit otherwise. -/
def indexLine (use_big_index : Bool) : String :=
  if use_big_index then "  size_t index = pos.x + grid.x * size_t(pos.y);\n"
  else "  uint index = pos.x + grid.x * (pos.y + grid.y * pos.z);\n"

/-- The per-axis index lines of the static-rank non-contiguous kernels,
lines 100-120. -/
def axisIndexLines (ndim : Nat) : String :=
  if ndim == 1 then "  uint index_0 = pos.x;\n"
  else if ndim == 2 then "  uint index_0 = pos.y;\n  uint index_1 = pos.x;\n"
  else if ndim == 3 then
    "  uint index_0 = pos.z;\n  uint index_1 = pos.y;\n  uint index_2 = pos.x;\n"
  else
    ((List.range (ndim - 2)).map (fun i =>
        "  uint index_" ++ Nat.repr i ++ " = (index / uint(output_strides["
          ++ Nat.repr i ++ "])) % output_shape[" ++ Nat.repr i ++ "];\n")).foldl
      (fun a b => a ++ b) ""
    ++ "  uint index_" ++ Nat.repr (ndim - 2) ++ " = pos.y;\n"
    ++ "  uint index_" ++ Nat.repr (ndim - 1) ++ " = pos.x;\n"

/-- The sum of stride terms after the first in a static-rank load,
lines 145-147: one term per axis i from 1 to ndim - 1. -/
def staticLoadTerms (off ndim : Nat) : String :=
  ((List.range (ndim - 1)).map (fun k =>
      " + index_" ++ Nat.repr (k + 1) ++ " * in_strides[" ++ Nat.repr (off + (k + 1)) ++ "]")).foldl
    (fun a b => a ++ b) ""

/-- Text of one tmp load, lines 128-155, keyed by the load classification. -/
def loadLine (ndim : Nat) (x : Arr) : LoadSpec → String
  | LoadSpec.constL =>
      "  auto tmp_" ++ nodeName x.id ++ " = static_cast<" ++ x.dtypeStr ++ ">("
        ++ x.constLit ++ ");\n"
  | LoadSpec.scalarL =>
      "  " ++ x.dtypeStr ++ " tmp_" ++ nodeName x.id ++ " = " ++ nodeName x.id ++ "[0];\n"
  | LoadSpec.contigL =>
      "  " ++ x.dtypeStr ++ " tmp_" ++ nodeName x.id ++ " = " ++ nodeName x.id ++ "[index];\n"
  | LoadSpec.staticL off =>
      "  " ++ x.dtypeStr ++ " tmp_" ++ nodeName x.id ++ " = " ++ nodeName x.id
        ++ "[index_0 * in_strides[" ++ Nat.repr off ++ "]" ++ staticLoadTerms off ndim ++ "];\n"
  | LoadSpec.dynL off =>
      "  " ++ x.dtypeStr ++ " tmp_" ++ nodeName x.id ++ " = " ++ nodeName x.id
        ++ "[elem_to_loc(index, output_shape, in_strides + " ++ Nat.repr off ++ ", ndim)];\n"

/-- Load lines for all inputs, pairing each input with its classification. -/
def loadsTextGo (ndim : Nat) : List (Arr × LoadSpec) → String
  | [] => ""
  | (x, sp) :: rest => loadLine ndim x sp ++ loadsTextGo ndim rest

def loadsText (inputs : List Arr) (specs : List LoadSpec) (ndim : Nat) : String :=
  loadsTextGo ndim (List.zip inputs specs)

/-- Comma-separated join of the tmp names of a tape node, lines 168-171. -/
def commaJoin : List String → String
  | [] => ""
  | [s] => s
  | s :: rest => s ++ ", " ++ commaJoin rest

/-- Text of one tape computation line, lines 159-173. -/
def tapeLine (t : TapeNode) : String :=
  if t.isCast then
    "  " ++ t.dtypeStr ++ " tmp_" ++ nodeName t.id ++ " = static_cast<" ++ t.dtypeStr
      ++ ">(tmp_" ++ nodeName (t.inIds.headD 0) ++ ");\n"
  else
    "  " ++ t.dtypeStr ++ " tmp_" ++ nodeName t.id ++ " = " ++ t.op ++ "()("
      ++ commaJoin (t.inIds.map (fun i => "tmp_" ++ nodeName i)) ++ ");\n"

def tapeText (tape : List TapeNode) : String :=
  (tape.map tapeLine).foldl (fun a b => a ++ b) ""

/-- Output store lines 176-179. -/
def storesText (outputs : List Arr) : String :=
  (outputs.map (fun x =>
      "  " ++ nodeName x.id ++ "[index] = tmp_" ++ nodeName x.id ++ ";\n")).foldl
    (fun a b => a ++ b) ""

/-- The overflow message of lines 185-189, quoting the kernel name. -/
def overflowMsg (kernel_name : String) : String :=
  "[compile] Too many inputs/outputs fused in the Metal Compiled primitive which exhausted the available argument buffers for the kernel. Please file an issue with the function that results in this error. The name of the kernel is \x27"
    ++ kernel_name ++ "\x27"

/-- Result of one build_kernel call: the text appended to the shared
stream, the final argument-slot counter, and the overflow failure if one
was raised (raised after the whole kernel text was emitted). -/
structure BuildResult where
  text : String
  cnt : Nat
  err : Option String
  deriving DecidableEq

/-- Shallow embedding of build_kernel, compiled.cpp lines 16-192.  The
emitted text follows the source order: prologue, parameter list, grid
position parameters, linear index, per-axis indices (static-rank
non-contiguous only), input loads, tape computation, output stores,
closing brace.  The slot counter check comes last, exactly as in the
source, so the text never depends on the failure. -/
def build_kernel (kernel_name : String) (inputs outputs : List Arr)
    (tape : List TapeNode) (constant_ids : List Nat)
    (contiguous : Bool) (ndim : Nat) (dynamic_dims : Bool) (use_big_index : Bool) :
    BuildResult :=
  let ps := kernelParams inputs outputs constant_ids contiguous dynamic_dims
  let specs := loadSpecs inputs constant_ids contiguous ndim dynamic_dims
  let addIdx := add_indices_flag inputs constant_ids contiguous
  let text :=
    kernelHeader kernel_name ++ paramsTextGo ps 0 ++ posGridText
      ++ indexLine use_big_index
      ++ (if addIdx && !dynamic_dims then axisIndexLines ndim else "")
      ++ loadsText inputs specs ndim
      ++ tapeText tape ++ storesText outputs ++ "\x7d\n"
  ⟨text, ps.length, if 31 < ps.length then some (overflowMsg kernel_name) else none⟩

/-- The generation arguments of one specialization variant. -/
structure VariantSpec where
  name : String
  contiguous : Bool
  ndim : Nat
  dynamic_dims : Bool
  use_big_index : Bool
  deriving DecidableEq

def buildOf (inputs outputs : List Arr) (tape : List TapeNode) (cids : List Nat)
    (v : VariantSpec) : BuildResult :=
  build_kernel v.name inputs outputs tape cids v.contiguous v.ndim v.dynamic_dims v.use_big_index

/-- Sequential emission of the variants into one shared stream,
mirroring the build closure of eval_gpu lines 205-253: each variant
appends its text; the first overflow failure aborts the remaining
variants but all text already written, including the failing variant in
full, stays in the stream. -/
def runBuilds (inputs outputs : List Arr) (tape : List TapeNode) (cids : List Nat) :
    List VariantSpec → String → String × Option String
  | [], acc => (acc, none)
  | v :: rest, acc =>
    let r := buildOf inputs outputs tape cids v
    match r.err with
    | some e => (acc ++ r.text, some e)
    | none => runBuilds inputs outputs tape cids rest (acc ++ r.text)

/-- The ten variants generated into one library, in the order of
eval_gpu lines 209-251: contiguous, contiguous_big, strided_1 through
strided_7 (generation rank 1..7), strided_dynamic (generation rank 0,
dynamic). -/
def variantSpecs (lib : String) : List VariantSpec :=
  [⟨lib ++ "_contiguous", true, 0, false, false⟩,
   ⟨lib ++ "_contiguous_big", true, 0, false, true⟩]
  ++ ((List.range' 1 7).map (fun i =>
        ⟨lib ++ "_strided_" ++ Nat.repr i, false, i, false, false⟩))
  ++ [⟨lib ++ "_strided_dynamic", false, 0, true, false⟩]

/-- The whole library text: the external operator headers (taken as a
parameter, they come from collaborating jit includes) followed by all
variants. -/
def buildLibrary (lib : String) (inputs outputs : List Arr) (tape : List TapeNode)
    (cids : List Nat) (headers : String) : String × Option String :=
  runBuilds inputs outputs tape cids (variantSpecs lib) headers

/-- Modelled from the spec: compiled_check_contiguity is declared in the
common backend (mlx/backend/common/compiled.h), not under src/.  The
spec: the analyzer declares the call contiguous iff every non-constant
input and every output are contiguous and match the shape of the output
exactly.  The constant set and the outputs are passed explicitly here
because the model has no globals. -/
def compiled_check_contiguity (inputs : List Arr) (cids : List Nat)
    (outputs : List Arr) (shape : List Nat) : Bool :=
  (inputs.all (fun x => isConstantId cids x || (x.contiguousFlag && x.shape == shape)))
  && (outputs.all (fun x => x.contiguousFlag && x.shape == shape))

/-- The broadcast stride vector one non-constant non-scalar input gets
against the output shape, mirroring eval_gpu lines 278-298: for each
extra leading output axis, the stride of the output itself if that
output axis has size 1 and otherwise 0; for each trailing-aligned axis,
the stride of the output itself if both sizes are 1, 0 if only the input
size is 1, and otherwise the real stride of the input. -/
def broadcastXStrides (output_shape out_strides xshape xstrides : List Nat) : List Nat :=
  ((List.range (output_shape.length - xshape.length)).map (fun j =>
      if output_shape.getD j 0 = 1 then out_strides.getD j 0 else 0))
  ++ ((List.range xshape.length).map (fun i =>
      if xshape.getD i 0 = 1 then
        (if output_shape.getD (output_shape.length - xshape.length + i) 0 = 1 then
          out_strides.getD (output_shape.length - xshape.length + i) 0
        else 0)
      else xstrides.getD i 0))

/-- Captured inputs paired with the runtime inputs, with the pairs whose
captured identity is in the constant set removed; eval_gpu tests the
constant set against inputs_ but operates on inputs. -/
def nonConstPairs (cids : List Nat) (pairs : List (Arr × Arr)) : List (Arr × Arr) :=
  pairs.filter (fun p => !isConstantId cids p.1)

/-- The initial_strides vector of eval_gpu lines 261-300: first the
strides of output 0, then, for every non-constant non-scalar input in
order, its broadcast stride vector against the output shape. -/
def initialStrides (cids : List Nat) (pairs : List (Arr × Arr)) (out0 : Arr)
    (output_shape : List Nat) : List (List Nat) :=
  out0.strides ::
    ((((nonConstPairs cids pairs).map (fun p => p.2)).filter (fun x => !is_scalar x)).map
      (fun x => broadcastXStrides output_shape out0.strides x.shape x.strides))

/-- The running maximum of data sizes over all inputs, lines 307-310. -/
def maxDataSize (inputs : List Arr) : Nat :=
  inputs.foldl (fun m x => max m x.dataSize) 0

/-- The use_2d decision, lines 305-312: only in the contiguous case, and
true iff the largest input data size exceeds UINT32_MAX. -/
def selectUse2d (inputs : List Arr) (contiguous : Bool) : Bool :=
  contiguous && decide (4294967295 < maxDataSize inputs)

/-- The kernel-name selection of lines 315-326 as a function of the
analyzer output: contiguity, the use_2d flag, and the collapsed rank. -/
def selectKernelName (lib : String) (contiguous use2d : Bool) (ndim : Nat) : String :=
  let base := lib ++ (if contiguous then "_contiguous" else "_strided_")
  if !contiguous then
    (if 8 ≤ ndim then base ++ "dynamic" else base ++ Nat.repr ndim)
  else if use2d then base ++ "_big"
  else base

/-- One bound resource of a kernel invocation. -/
inductive Binding where
  | inArr (id : Nat)
  | inStridesBytes (data : List Nat)
  | outArr (id : Nat)
  | outStridesBytes (data : List Nat)
  | outShapeBytes (data : List Nat)
  | ndimBytes (n : Nat)
  deriving DecidableEq

/-- State produced by the input-binding loop of lines 331-348. -/
structure InLoopOut where
  binds : List (Nat × Binding)
  cnt : Nat
  inStrides : List Nat
  strideIdx : Nat

/-- The input-binding loop of eval_gpu lines 331-348: constants are
skipped entirely; every other input is bound at the next slot; when the
call is not contiguous and the input is not scalar, the row of the
collapsed stride table at stride_idx is appended to in_strides and
stride_idx advances (row 0 of the table is the output strides, so
stride_idx starts at 1). -/
def inputBindLoop (cids : List Nat) (contiguous : Bool) (stridesAll : List (List Nat)) :
    List (Arr × Arr) → Nat → Nat → InLoopOut
  | [], cnt, sidx => ⟨[], cnt, [], sidx⟩
  | (xc, x) :: rest, cnt, sidx =>
    if isConstantId cids xc then inputBindLoop cids contiguous stridesAll rest cnt sidx
    else if contiguous || is_scalar x then
      let r := inputBindLoop cids contiguous stridesAll rest (cnt + 1) sidx
      ⟨(cnt, Binding.inArr x.id) :: r.binds, r.cnt, r.inStrides, r.strideIdx⟩
    else
      let r := inputBindLoop cids contiguous stridesAll rest (cnt + 1) (sidx + 1)
      ⟨(cnt, Binding.inArr x.id) :: r.binds, r.cnt,
        stridesAll.getD sidx [] ++ r.inStrides, r.strideIdx⟩

/-- The output-binding loop of lines 357-360. -/
def outBinds : List Arr → Nat → List (Nat × Binding)
  | [], _ => []
  | x :: rest, cnt => (cnt, Binding.outArr x.id) :: outBinds rest (cnt + 1)

/-- The full argument-binding sequence of eval_gpu lines 331-372, each
resource paired with the slot the cnt++ counter gave it: non-constant
inputs, the packed in_strides buffer when non-empty, the outputs, the
output strides and shape when not contiguous, the rank scalar when
dynamic. -/
def mkBindings (cids : List Nat) (pairs : List (Arr × Arr)) (outputs : List Arr)
    (contiguous : Bool) (stridesAll : List (List Nat)) (shape : List Nat)
    (dynamic : Bool) (ndim : Nat) : List (Nat × Binding) :=
  let r := inputBindLoop cids contiguous stridesAll pairs 0 1
  let cnt1 := r.cnt
  let sBinds := if r.inStrides.isEmpty then [] else [(cnt1, Binding.inStridesBytes r.inStrides)]
  let cnt2 := if r.inStrides.isEmpty then cnt1 else cnt1 + 1
  let oBinds := outBinds outputs cnt2
  let cnt3 := cnt2 + outputs.length
  let osBinds :=
    if contiguous then []
    else [(cnt3, Binding.outStridesBytes (stridesAll.getD 0 [])),
          (cnt3 + 1, Binding.outShapeBytes shape)]
  let cnt4 := if contiguous then cnt3 else cnt3 + 2
  let dBinds := if dynamic then [(cnt4, Binding.ndimBytes ndim)] else []
  r.binds ++ sBinds ++ oBinds ++ osBinds ++ dBinds

/-- All runtime data one eval_gpu call consumes: the library name, the
captured and runtime inputs, the captured and runtime outputs, the tape,
the constant set, the external header text, the reported maximum threads
per threadgroup of the selected kernel, and whether the library is
already cached. -/
structure EvalArgs where
  kernelLib : String
  inputsC : List Arr
  inputs : List Arr
  outputsC : List Arr
  outputs : List Arr
  tape : List TapeNode
  cids : List Nat
  headers : String
  maxThreads : Nat
  libCached : Bool

/-- Outcome of one eval_gpu call: a generation failure (no compilation,
no dispatch), a dispatch-time failure (nothing submitted), or a
submitted dispatch with its kernel name and bound arguments. -/
inductive EvalOutcome where
  | genError (msg : String)
  | dispatchError (msg : String)
  | dispatched (kernelName : String) (binds : List (Nat × Binding))
  deriving DecidableEq

/-- The dispatch phase of eval_gpu lines 255-394, after the library is
available.  collapse stands for the external collapse_contiguous_dims
helper (declared in the common backend, not under src/): it receives the
output shape and the initial stride table and returns the collapsed
shape and stride table.  The strided launch path requires the reported
maximum threads per threadgroup to equal 1024 and otherwise throws the
fixed message of line 389 after the arguments were already bound. -/
def dispatchPhase (a : EvalArgs)
    (collapse : List Nat → List (List Nat) → List Nat × List (List Nat)) : EvalOutcome :=
  let output_shape := (a.outputs.headD default).shape
  let contiguous := compiled_check_contiguity a.inputs a.cids a.outputs output_shape
  let pairs := List.zip a.inputsC a.inputs
  let sc :=
    if contiguous then ([], [])
    else collapse output_shape (initialStrides a.cids pairs (a.outputs.headD default) output_shape)
  let shape := sc.1
  let ndim := shape.length
  let dynamic := decide (8 ≤ ndim)
  let use2d := selectUse2d a.inputs contiguous
  let name := selectKernelName a.kernelLib contiguous use2d ndim
  let binds := mkBindings a.cids pairs a.outputs contiguous sc.2 shape dynamic ndim
  if contiguous then EvalOutcome.dispatched name binds
  else if a.maxThreads ≠ 1024 then
    EvalOutcome.dispatchError "[Metal::binary] Must use 1024 sized block"
  else EvalOutcome.dispatched name binds

/-- Shallow embedding of Compiled::eval_gpu, lines 194-395: when the
library is not cached the build closure emits every variant and a
generation failure aborts the call before any compilation or dispatch;
otherwise the dispatch phase runs. -/
def eval_gpu (a : EvalArgs)
    (collapse : List Nat → List (List Nat) → List Nat × List (List Nat)) : EvalOutcome :=
  let lb :=
    if a.libCached then ("", none)
    else buildLibrary a.kernelLib a.inputsC a.outputsC a.tape a.cids a.headers
  match lb.2 with
  | some e => EvalOutcome.genError e
  | none => dispatchPhase a collapse

/-- Modelled from the spec: the runtime axis-decomposition helper
elem_to_loc lives in the Metal kernel utility headers, not under src/.
Per the spec it decomposes the linear index into per-axis indices
against the declared shape, innermost axis first, and accumulates axis
index times stride; this is the fold over the reversed shape and stride
rows. -/
def elemToLocRev : Nat → List Nat → List Nat → Nat
  | _, [], _ => 0
  | _, _ :: _, [] => 0
  | e, sh :: shs, st :: sts => e % sh * st + elemToLocRev (e / sh) shs sts

def elemToLoc (e : Nat) (shape strides : List Nat) : Nat :=
  elemToLocRev e shape.reverse strides.reverse

/-- The per-axis indices a static-rank strided kernel derives, mirroring
the emitted lines 100-120: ranks 1 to 3 read the grid position directly;
higher ranks divide the linear index by the output stride (narrowed to
uint) and reduce modulo the output shape for all but the last two axes,
which still come from the grid position. -/
def staticAxisIndices (ndim px py pz index : Nat) (ostrides oshape : List Nat) : List Nat :=
  if ndim == 1 then [px]
  else if ndim == 2 then [py, px]
  else if ndim == 3 then [pz, py, px]
  else
    ((List.range (ndim - 2)).map (fun i =>
        index / (ostrides.getD i 0 % 4294967296) % oshape.getD i 1))
      ++ [py, px]

def dotList (xs ys : List Nat) : Nat :=
  (List.zipWith (fun a b => a * b) xs ys).sum

/-- Runtime context of one generated kernel thread: the specialization
flags it was generated with, the runtime rank bound to the ndim scalar,
the computed linear index, the grid position, and the bound shape,
stride and in_strides buffers. -/
structure KernelCtx where
  contiguous : Bool
  genNdim : Nat
  dynamic_dims : Bool
  rtNdim : Nat
  index : Nat
  px : Nat
  py : Nat
  pz : Nat
  oshape : List Nat
  ostrides : List Nat
  inStrides : List Nat

/-- Memory location a static-rank strided load reads for the stride row
starting at the printed offset: the emitted dot product of the per-axis
indices against in_strides[off + i] for i below the generation rank. -/
def staticLoc (c : KernelCtx) (off : Nat) : Nat :=
  dotList (staticAxisIndices c.genNdim c.px c.py c.pz c.index c.ostrides c.oshape)
    ((List.range c.genNdim).map (fun i => c.inStrides.getD (off + i) 0))

/-- Memory location a dynamic-rank load reads: elem_to_loc applied to
the linear index, the bound output shape, the in_strides buffer advanced
by the printed offset, and the runtime rank. -/
def dynLoc (c : KernelCtx) (off : Nat) : Nat :=
  elemToLoc c.index (c.oshape.take c.rtNdim) ((c.inStrides.drop off).take c.rtNdim)

/-- One semantic input: its metadata, the data in its buffer as a
function from flat location to value, and its inlined value when it is a
captured constant. -/
structure SemIn where
  arr : Arr
  data : Nat → Int
  cval : Int

/-- Values loaded into the tmp registers, mirroring the same branch
structure as the load emission of lines 122-156, including the printed
offset nc_in_count * genNdim of both non-contiguous branches. -/
def loadValues (cids : List Nat) (c : KernelCtx) : List SemIn → Nat → List Int
  | [], _ => []
  | s :: rest, nc =>
    if isConstantId cids s.arr then s.cval :: loadValues cids c rest nc
    else if is_scalar s.arr then s.data 0 :: loadValues cids c rest nc
    else if c.contiguous then s.data c.index :: loadValues cids c rest nc
    else if !c.dynamic_dims then
      s.data (staticLoc c (nc * c.genNdim)) :: loadValues cids c rest (nc + 1)
    else
      s.data (dynLoc c (nc * c.genNdim)) :: loadValues cids c rest (nc + 1)

/-- Execution of one generated kernel thread: the linear index is the
narrowed 32-bit combination of the grid position (or the 64-bit 2-D
combination for the wide-index contiguous kernel); the thread writes at
that index the fused computation comb applied to the loaded values.
Returns the written location and the written value. -/
def runKernel (comb : List Int → Int) (cids : List Nat) (ins : List SemIn)
    (contiguous : Bool) (genNdim : Nat) (dynamic_dims use_big_index : Bool) (rtNdim : Nat)
    (oshape ostrides inStrides : List Nat) (gx gy px py pz : Nat) : Nat × Int :=
  let index :=
    if use_big_index then (px + gx * py) % 18446744073709551616
    else (px + gx * (py + gy * pz)) % 4294967296
  let c : KernelCtx :=
    ⟨contiguous, genNdim, dynamic_dims, rtNdim, index, px, py, pz, oshape, ostrides, inStrides⟩
  (index, comb (loadValues cids c ins 0))

/-- Concrete rank-2 input with row-major strides used in counterexamples. -/
def exArr0 : Arr := ⟨0, [2, 2], [2, 1], "float", "", 4, true⟩

/-- Concrete rank-2 input with transposed strides. -/
def exArr1 : Arr := ⟨1, [2, 2], [1, 2], "float", "", 4, false⟩

/-- Concrete data of input 0: the value at flat location i is i. -/
def exData0 : Nat → Int := fun i => Int.ofNat i

/-- Concrete data of input 1: the value at flat location i is 100 + i. -/
def exData1 : Nat → Int := fun i => 100 + Int.ofNat i

/-- Concrete fused computation: first tmp plus ten times second tmp. -/
def exComb : List Int → Int := fun l => l.getD 0 0 + 10 * l.getD 1 0

def exIns : List SemIn := [⟨exArr0, exData0, 0⟩, ⟨exArr1, exData1, 0⟩]

/-- Concrete scalar constant input. -/
def exConst : Arr := ⟨5, [], [], "float", "2.0f", 1, true⟩

/-- Concrete contiguous output array of shape [2, 2]. -/
def exOut : Arr := ⟨3, [2, 2], [2, 1], "float", "", 4, true⟩

/-- Concrete non-contiguous runtime input for the dispatch counterexample. -/
def exNcIn : Arr := ⟨2, [2, 2], [2, 1], "float", "", 4, false⟩

/-- A collapse function that returns its arguments unchanged, usable as
the external collapse_contiguous_dims when nothing merges. -/
def exCollapse : List Nat → List (List Nat) → List Nat × List (List Nat) :=
  fun s strs => (s, strs)

/-- Concrete eval_gpu call: cached library, one non-contiguous input,
one output, reported threadgroup capacity 512. -/
def exArgs7 : EvalArgs :=
  ⟨"mylib", [exNcIn], [exNcIn], [exOut], [exOut], [], [], "", 512, true⟩

/-- 33 concrete outputs, enough to exhaust the 31 argument slots. -/
def mkExOut (i : Nat) : Arr := ⟨i, [2], [1], "float", "", 2, true⟩

def exOuts : List Arr := (List.range 33).map mkExOut

def exName : String := "k"

def exDynMsg : String := "[Metal::binary] Must use 1024 sized block"

/-- The packed stride rows the input-binding loop accumulates when it
starts at table index sidx and consumes count rows: rows sidx,
sidx + 1, ..., sidx + count - 1 of the collapsed stride table,
concatenated in order. -/
def packedRowsFrom (stridesAll : List (List Nat)) (sidx count : Nat) : List Nat :=
  ((List.range count).map (fun k => stridesAll.getD (sidx + k) [])).flatten

/-- C1.  The claim fails on the code: over the same concrete data (two
rank-2 non-scalar non-constant inputs, the second with transposed
strides, bound stride rows [2,1] and [1,2], row-contiguous output of
shape [2,2]), the strided_2 specialization and the strided_dynamic
specialization run at the same rank write different values at output
element 1.  The dynamic variant is generated with rank argument 0, so
the printed load offset nc_in_count * ndim is 0 for every input and the
second input is read through the stride row of the first. -/
theorem c1_strided_static_dynamic_disagree_eval :
    runKernel exComb [] exIns false 2 false false 2 [2, 2] [2, 1] [2, 1, 1, 2] 2 2 1 0 0
      = (1, 1021) ∧
    runKernel exComb [] exIns false 0 true false 2 [2, 2] [2, 1] [2, 1, 1, 2] 2 2 1 0 0
      = (1, 1011) := by
  constructor <;> rfl

/-- C2.  The claim fails on the code: the strided_dynamic variant is the
last generated variant and is built with generation rank 0 and dynamic
dims, so the load loop prints offset nc_in_count * 0 = 0 for every
non-scalar non-constant input and all of them read stride row 0; the
static-rank variants do use offset i * ndim as claimed. -/
theorem c2_dynamic_variant_stride_offsets_eval :
    (variantSpecs exName).getLast? = some ⟨exName ++ "_strided_dynamic", false, 0, true, false⟩ ∧
    loadSpecs [exArr0, exArr1] [] false 0 true = [LoadSpec.dynL 0, LoadSpec.dynL 0] ∧
    loadSpecs [exArr0, exArr1] [] false 2 false = [LoadSpec.staticL 0, LoadSpec.staticL 2] := by
  refine ⟨rfl, rfl, rfl⟩

/-- C7 counterexample.  The claim asserts the threadgroup-capacity
failure message names the offending kernel; on a concrete strided call
(kernel mylib_strided_2, reported capacity 512) the dispatcher throws
the fixed message of line 389, and the kernel name is not contained in
that message. -/
theorem c7_message_lacks_kernel_name_counterexample :
    eval_gpu exArgs7 exCollapse = EvalOutcome.dispatchError exDynMsg ∧
    ¬ List.IsInfix (String.data ("mylib" ++ "_strided_" ++ Nat.repr 2)) exDynMsg.data := by
  exact ⟨rfl, by decide⟩

/-- Helper: indexing a mapped range with a default reads off the mapped
function. -/
theorem getD_map_range (f : Nat → Nat) (n j : Nat) (hj : j < n) :
    ((List.range n).map f).getD j 0 = f j := by
  simp [List.getD_eq_getElem?_getD, List.getElem?_map, List.getElem?_range hj]

/-- C3.  The stride vector the analyzer computes for a non-constant
non-scalar input against the output shape: each extra leading output
axis gets stride 0 unless that output axis has size 1, in which case it
gets the stride of the output itself; each trailing-aligned axis gets 0
when the input size there is 1 and the output size exceeds 1, the stride
of the output when both sizes are 1, and the real input stride when the
input size is not 1. -/
theorem c3_broadcast_stride_characterization
    (oshape ostr xshape xstr : List Nat) (hlen : xshape.length ≤ oshape.length) :
    (broadcastXStrides oshape ostr xshape xstr).length = oshape.length ∧
    (∀ j, j < oshape.length - xshape.length →
      (broadcastXStrides oshape ostr xshape xstr).getD j 0 =
        if oshape.getD j 0 = 1 then ostr.getD j 0 else 0) ∧
    (∀ i, i < xshape.length →
      ((xshape.getD i 0 = 1 → 1 < oshape.getD (oshape.length - xshape.length + i) 0 →
          (broadcastXStrides oshape ostr xshape xstr).getD
            (oshape.length - xshape.length + i) 0 = 0) ∧
       (xshape.getD i 0 = 1 → oshape.getD (oshape.length - xshape.length + i) 0 = 1 →
          (broadcastXStrides oshape ostr xshape xstr).getD
            (oshape.length - xshape.length + i) 0 =
            ostr.getD (oshape.length - xshape.length + i) 0) ∧
       (xshape.getD i 0 ≠ 1 →
          (broadcastXStrides oshape ostr xshape xstr).getD
            (oshape.length - xshape.length + i) 0 = xstr.getD i 0))) := by
  refine ⟨?_, ?_, ?_⟩
  · simp only [broadcastXStrides, List.length_append, List.length_map, List.length_range]
    omega
  · intro j hj
    unfold broadcastXStrides
    rw [List.getD_append _ _ _ _ (by simpa using hj)]
    exact getD_map_range _ _ _ hj
  · intro i hi
    unfold broadcastXStrides
    rw [List.getD_append_right _ _ _ _ (by simp)]
    simp only [List.length_map, List.length_range]
    have hsub : oshape.length - xshape.length + i - (oshape.length - xshape.length) = i := by
      omega
    rw [hsub, getD_map_range _ _ _ hi]
    by_cases hx : xshape.getD i 0 = 1
    · refine ⟨fun _ hgt => ?_, fun _ heq => ?_, fun hne => absurd hx hne⟩
      · rw [if_pos hx, if_neg (by omega)]
      · rw [if_pos hx, if_pos heq]
    · exact ⟨fun h => absurd h hx, fun h => absurd h hx, fun _ => by rw [if_neg hx]⟩

/-- C3 witness: concrete broadcast of input shape [1, 8] against output
shape [4, 6, 8]: the axis aligned with output axis 1 (input size 1,
output size 6) gets stride 0. -/
theorem c3_broadcast_stride_witness :
    (broadcastXStrides [4, 6, 8] [48, 8, 1] [1, 8] [8, 1]).getD 1 0 = 0 := by
  have h := c3_broadcast_stride_characterization [4, 6, 8] [48, 8, 1] [1, 8] [8, 1] (by decide)
  simpa using (h.2.2 0 (by decide)).1 (by decide) (by decide)

/-- Helper: the running maximum of data sizes exceeds a bound iff some
input exceeds it. -/
theorem maxDataSize_lt_iff (c : Nat) (inputs : List Arr) :
    c < maxDataSize inputs ↔ ∃ x ∈ inputs, c < x.dataSize := by
  suffices h : ∀ (a : Nat) (l : List Arr),
      (c < l.foldl (fun m x => max m x.dataSize) a ↔ c < a ∨ ∃ x ∈ l, c < x.dataSize) by
    simpa [maxDataSize] using h 0 inputs
  intro a l
  induction l generalizing a with
  | nil => simp
  | cons y t ih =>
    rw [List.foldl_cons, ih (max a y.dataSize), lt_max_iff]
    simp only [List.mem_cons]
    constructor
    · rintro ((h | h) | ⟨x, hx, hc⟩)
      · exact Or.inl h
      · exact Or.inr ⟨y, Or.inl rfl, h⟩
      · exact Or.inr ⟨x, Or.inr hx, hc⟩
    · rintro (h | ⟨x, (rfl | hx), hc⟩)
      · exact Or.inl (Or.inl h)
      · exact Or.inl (Or.inr hc)
      · exact Or.inr ⟨x, hx, hc⟩

/-- C4.  The dispatcher selects the variant name as a total function of
the analyzer output: on the contiguous path the wide-index name iff some
input data size exceeds the 32-bit range and the narrow name iff none
does; on the non-contiguous path strided_N for collapsed rank N from 1
to 7 and strided_dynamic for collapsed rank at least 8. -/
theorem c4_kernel_name_selection (lib : String) (inputs : List Arr) (ndim : Nat) :
    (selectKernelName lib true (selectUse2d inputs true) ndim = lib ++ "_contiguous_big"
        ↔ 4294967295 < maxDataSize inputs) ∧
    (selectKernelName lib true (selectUse2d inputs true) ndim = lib ++ "_contiguous"
        ↔ maxDataSize inputs ≤ 4294967295) ∧
    (4294967295 < maxDataSize inputs ↔ ∃ x ∈ inputs, 4294967295 < x.dataSize) ∧
    (1 ≤ ndim → ndim ≤ 7 →
      selectKernelName lib false (selectUse2d inputs false) ndim
        = lib ++ "_strided_" ++ Nat.repr ndim) ∧
    (8 ≤ ndim →
      selectKernelName lib false (selectUse2d inputs false) ndim
        = lib ++ "_strided_dynamic") := by
  have hcat1 : ("_contiguous" ++ "_big" : String) = "_contiguous_big" := by decide
  have hcat2 : ("_strided_" ++ "dynamic" : String) = "_strided_dynamic" := by decide
  have hlen1 : ("_contiguous" : String).length = 11 := by decide
  have hlen2 : ("_contiguous_big" : String).length = 15 := by decide
  have hne : lib ++ "_contiguous" ≠ lib ++ "_contiguous_big" := by
    intro h
    have h2 := congrArg String.length h
    rw [String.length_append, String.length_append, hlen1, hlen2] at h2
    omega
  have hsel : ∀ u : Bool, selectKernelName lib true u ndim
      = if u then (lib ++ "_contiguous") ++ "_big" else lib ++ "_contiguous" := by
    intro u; cases u <;> simp [selectKernelName]
  have hu2 : selectUse2d inputs true = decide (4294967295 < maxDataSize inputs) := by
    simp [selectUse2d]
  refine ⟨?_, ?_, maxDataSize_lt_iff _ _, ?_, ?_⟩
  · rw [hsel, hu2]
    by_cases hP : 4294967295 < maxDataSize inputs
    · rw [if_pos (by simpa using hP)]
      exact iff_of_true (by rw [String.append_assoc, hcat1]) hP
    · rw [if_neg (by simpa using hP)]
      exact iff_of_false hne hP
  · rw [hsel, hu2]
    by_cases hP : 4294967295 < maxDataSize inputs
    · rw [if_pos (by simpa using hP)]
      refine iff_of_false (fun h => hne ?_) (by omega)
      rw [String.append_assoc, hcat1] at h
      exact h.symm
    · rw [if_neg (by simpa using hP)]
      exact iff_of_true rfl (by omega)
  · intro h1 h7
    have h8 : ¬ 8 ≤ ndim := by omega
    simp [selectKernelName, h8]
  · intro h8
    simp only [selectKernelName, Bool.not_false, if_true, if_pos h8, if_neg (by decide : ¬ (false = true))]
    rw [String.append_assoc, hcat2]

/-- C4 witness: a concrete non-contiguous call with collapsed rank 2
selects the strided_2 variant name. -/
theorem c4_kernel_name_selection_witness :
    selectKernelName exName false (selectUse2d [] false) 2
      = exName ++ "_strided_" ++ Nat.repr 2 :=
  (c4_kernel_name_selection exName [] 2).2.2.2.1 (by decide) (by decide)

/-- Helper: on the contiguous path the input-binding loop never packs a
stride row. -/
theorem inputBindLoop_true_inStrides (cids : List Nat) (sAll : List (List Nat)) :
    ∀ (pairs : List (Arr × Arr)) (cnt sidx : Nat),
      (inputBindLoop cids true sAll pairs cnt sidx).inStrides = [] := by
  intro pairs
  induction pairs with
  | nil => intro cnt sidx; rfl
  | cons p t ih =>
    intro cnt sidx
    obtain ⟨xc, x⟩ := p
    by_cases hc : isConstantId cids xc <;> simp [inputBindLoop, hc, ih]

/-- Helper: every resource the input-binding loop binds is an input
buffer. -/
theorem inputBindLoop_binds_kinds (cids : List Nat) (contiguous : Bool)
    (sAll : List (List Nat)) :
    ∀ (pairs : List (Arr × Arr)) (cnt sidx : Nat) (b : Nat × Binding),
      b ∈ (inputBindLoop cids contiguous sAll pairs cnt sidx).binds →
      ∃ id, b.2 = Binding.inArr id := by
  intro pairs
  induction pairs with
  | nil => intro cnt sidx b hb; simp [inputBindLoop] at hb
  | cons p t ih =>
    intro cnt sidx b hb
    obtain ⟨xc, x⟩ := p
    by_cases hc : isConstantId cids xc
    · rw [show inputBindLoop cids contiguous sAll ((xc, x) :: t) cnt sidx
          = inputBindLoop cids contiguous sAll t cnt sidx by simp [inputBindLoop, hc]] at hb
      exact ih cnt sidx b hb
    · by_cases hs : (contiguous || is_scalar x) = true
      · rw [show inputBindLoop cids contiguous sAll ((xc, x) :: t) cnt sidx
            = ⟨(cnt, Binding.inArr x.id) :: (inputBindLoop cids contiguous sAll t (cnt + 1) sidx).binds,
               (inputBindLoop cids contiguous sAll t (cnt + 1) sidx).cnt,
               (inputBindLoop cids contiguous sAll t (cnt + 1) sidx).inStrides,
               (inputBindLoop cids contiguous sAll t (cnt + 1) sidx).strideIdx⟩
            by simp [inputBindLoop, hc, hs]] at hb
        rcases List.mem_cons.mp hb with h | h
        · exact ⟨x.id, by rw [h]⟩
        · exact ih (cnt + 1) sidx b h
      · rw [show inputBindLoop cids contiguous sAll ((xc, x) :: t) cnt sidx
            = ⟨(cnt, Binding.inArr x.id)
                 :: (inputBindLoop cids contiguous sAll t (cnt + 1) (sidx + 1)).binds,
               (inputBindLoop cids contiguous sAll t (cnt + 1) (sidx + 1)).cnt,
               sAll.getD sidx [] ++ (inputBindLoop cids contiguous sAll t (cnt + 1) (sidx + 1)).inStrides,
               (inputBindLoop cids contiguous sAll t (cnt + 1) (sidx + 1)).strideIdx⟩
            by simp [inputBindLoop, hc, hs]] at hb
        rcases List.mem_cons.mp hb with h | h
        · exact ⟨x.id, by rw [h]⟩
        · exact ih (cnt + 1) (sidx + 1) b h

/-- Helper: every resource the output-binding loop binds is an output
buffer. -/
theorem outBinds_kinds :
    ∀ (os : List Arr) (cnt : Nat) (b : Nat × Binding), b ∈ outBinds os cnt →
      ∃ id, b.2 = Binding.outArr id := by
  intro os
  induction os with
  | nil => intro cnt b hb; simp [outBinds] at hb
  | cons x t ih =>
    intro cnt b hb
    rcases List.mem_cons.mp hb with h | h
    · exact ⟨x.id, by rw [h]⟩
    · exact ih (cnt + 1) b h

/-- C5.  The modelled analyzer declares the call contiguous iff every
non-constant input and every output are contiguous and match the output
shape exactly; and when it does, the dispatcher submits a dispatch whose
bound arguments contain no input-stride, output-stride, or output-shape
buffer. -/
theorem c5_contiguity_decl_and_no_stride_binds :
    (∀ (inputs : List Arr) (cids : List Nat) (outputs : List Arr) (oshape : List Nat),
      compiled_check_contiguity inputs cids outputs oshape = true ↔
        ((∀ x ∈ inputs, x.id ∉ cids → x.contiguousFlag = true ∧ x.shape = oshape) ∧
         (∀ x ∈ outputs, x.contiguousFlag = true ∧ x.shape = oshape))) ∧
    (∀ (a : EvalArgs) (collapse : List Nat → List (List Nat) → List Nat × List (List Nat)),
      compiled_check_contiguity a.inputs a.cids a.outputs (a.outputs.headD default).shape = true →
      ∃ nm bs, dispatchPhase a collapse = EvalOutcome.dispatched nm bs ∧
        ∀ b ∈ bs, (∀ d, b.2 ≠ Binding.inStridesBytes d) ∧
          (∀ d, b.2 ≠ Binding.outStridesBytes d) ∧ (∀ d, b.2 ≠ Binding.outShapeBytes d)) := by
  constructor
  · intro inputs cids outputs oshape
    simp only [compiled_check_contiguity, Bool.and_eq_true, List.all_eq_true,
      Bool.or_eq_true, isConstantId]
    constructor
    · rintro ⟨h1, h2⟩
      refine ⟨fun x hx hnc => ?_, fun x hx => ?_⟩
      · rcases h1 x hx with h | h
        · exact absurd (by simpa using h) hnc
        · simpa using h
      · simpa using h2 x hx
    · rintro ⟨h1, h2⟩
      refine ⟨fun x hx => ?_, fun x hx => by simp [h2 x hx]⟩
      by_cases hm : x.id ∈ cids
      · exact Or.inl (by simpa using hm)
      · exact Or.inr (by simp [h1 x hx hm])
  · intro a collapse hcont
    simp only [dispatchPhase, hcont]
    simp only [mkBindings, inputBindLoop_true_inStrides, List.isEmpty_nil]
    refine ⟨_, _, rfl, ?_⟩
    intro b hb
    simp [List.mem_append] at hb
    have hkind : (∃ id, b.2 = Binding.inArr id) ∨ ∃ id, b.2 = Binding.outArr id := by
      rcases hb with h | h
      · exact Or.inl (inputBindLoop_binds_kinds _ _ _ _ _ _ b h)
      · exact Or.inr (outBinds_kinds _ _ b h)
    rcases hkind with ⟨id, h⟩ | ⟨id, h⟩ <;> rw [h] <;>
      exact ⟨fun d => by simp, fun d => by simp, fun d => by simp⟩

/-- C5 witness: a concrete call with one contiguous matching input and
output is declared contiguous. -/
theorem c5_contiguity_witness :
    compiled_check_contiguity [exOut] [] [exOut] [2, 2] = true :=
  (c5_contiguity_decl_and_no_stride_binds.1 [exOut] [] [exOut] [2, 2]).mpr (by decide)

/-- C6.  Source generation raises the overflow failure iff the slot
counter exceeds 31; the counter is exactly the number of bound
resources (non-constant input buffers, the optional in_strides buffer,
output buffers, the optional output stride and shape buffers, the
optional rank scalar); the failure message contains the offending kernel
name; and when the library build fails, eval_gpu ends in a generation
error, before any compilation or dispatch. -/
theorem c6_argument_overflow_check (kernel_name : String) (inputs outputs : List Arr)
    (tape : List TapeNode) (cids : List Nat) (contiguous : Bool) (ndim : Nat) (dyn big : Bool) :
    ((build_kernel kernel_name inputs outputs tape cids contiguous ndim dyn big).err ≠ none
      ↔ 31 < (build_kernel kernel_name inputs outputs tape cids contiguous ndim dyn big).cnt) ∧
    (build_kernel kernel_name inputs outputs tape cids contiguous ndim dyn big).cnt
      = (inputs.filter (fun x => !isConstantId cids x)).length
        + (if add_indices_flag inputs cids contiguous then 1 else 0)
        + outputs.length + (if contiguous then 0 else 2) + (if dyn then 1 else 0) ∧
    (∀ m, (build_kernel kernel_name inputs outputs tape cids contiguous ndim dyn big).err = some m
      → List.IsInfix kernel_name.data m.data) ∧
    (∀ (a : EvalArgs) (collapse : List Nat → List (List Nat) → List Nat × List (List Nat))
        (e : String), a.libCached = false →
      (buildLibrary a.kernelLib a.inputsC a.outputsC a.tape a.cids a.headers).2 = some e →
      eval_gpu a collapse = EvalOutcome.genError e) := by
  refine ⟨?_, ?_, ?_, ?_⟩
  · by_cases h : 31 < (kernelParams inputs outputs cids contiguous dyn).length <;>
      simp [build_kernel, h]
  · cases hA : add_indices_flag inputs cids contiguous <;> cases contiguous <;> cases dyn <;>
      simp [build_kernel, kernelParams, hA] <;> omega
  · intro m hm
    by_cases h : 31 < (kernelParams inputs outputs cids contiguous dyn).length
    · simp only [build_kernel, if_pos h, Option.some.injEq] at hm
      subst hm
      refine ⟨("[compile] Too many inputs/outputs fused in the Metal Compiled primitive which exhausted the available argument buffers for the kernel. Please file an issue with the function that results in this error. The name of the kernel is \x27" : String).data,
        ("\x27" : String).data, ?_⟩
      rw [overflowMsg, String.data_append, String.data_append]
    · simp [build_kernel, if_neg h] at hm
  · intro a collapse e h1 h2
    simp [eval_gpu, h1, h2]

/-- C6 witness: a fused computation with 33 outputs overflows and the
failure message contains the kernel name. -/
theorem c6_argument_overflow_witness :
    List.IsInfix exName.data (overflowMsg exName).data :=
  (c6_argument_overflow_check exName [] exOuts [] [] true 0 false false).2.2.1
    (overflowMsg exName) rfl

/-- C10.  The overflow check runs only after the whole kernel text,
closing brace included, has been written to the shared stream: a
successful variant appends its full text and generation continues; a
failing variant still appends its full text (nothing is removed) and the
failure is reported with everything emitted so far kept; and every
generated kernel text ends with the closing brace line. -/
theorem c10_emission_precedes_overflow_check (inputs outputs : List Arr)
    (tape : List TapeNode) (cids : List Nat) (v : VariantSpec) (rest : List VariantSpec)
    (acc : String) :
    ((buildOf inputs outputs tape cids v).err = none →
      runBuilds inputs outputs tape cids (v :: rest) acc
        = runBuilds inputs outputs tape cids rest
            (acc ++ (buildOf inputs outputs tape cids v).text)) ∧
    (∀ e, (buildOf inputs outputs tape cids v).err = some e →
      runBuilds inputs outputs tape cids (v :: rest) acc
        = (acc ++ (buildOf inputs outputs tape cids v).text, some e)) ∧
    (∃ body, (buildOf inputs outputs tape cids v).text = body ++ "\x7d\n") := by
  refine ⟨?_, ?_, ⟨_, rfl⟩⟩
  · intro h; simp [runBuilds, h]
  · intro e h; simp [runBuilds, h]

/-- C10 witness: the overflowing 33-output kernel still has its complete
text in the stream when the failure is reported. -/
theorem c10_emission_witness :
    runBuilds [] exOuts [] [] [⟨exName, true, 0, false, false⟩] ""
      = ("" ++ (buildOf [] exOuts [] [] ⟨exName, true, 0, false, false⟩).text,
         some (overflowMsg exName)) :=
  (c10_emission_precedes_overflow_check [] exOuts [] []
    ⟨exName, true, 0, false, false⟩ [] "").2.1 (overflowMsg exName) rfl

/-- C7 amended.  On every strided (non-contiguous) dispatch, if the
reported maximum threads per threadgroup differs from 1024 the
dispatcher raises a fatal failure with the fixed message of line 389
(which does not name the offending kernel) and no dispatch is
submitted; when the value equals 1024 the dispatch is submitted. -/
theorem c7_threadgroup_check_amended (a : EvalArgs)
    (collapse : List Nat → List (List Nat) → List Nat × List (List Nat))
    (hlib : a.libCached = true)
    (hnc : compiled_check_contiguity a.inputs a.cids a.outputs
      (a.outputs.headD default).shape = false) :
    (a.maxThreads ≠ 1024 →
      eval_gpu a collapse
        = EvalOutcome.dispatchError "[Metal::binary] Must use 1024 sized block") ∧
    (a.maxThreads = 1024 →
      ∀ m, eval_gpu a collapse ≠ EvalOutcome.dispatchError m) := by
  have hev : eval_gpu a collapse = dispatchPhase a collapse := by simp [eval_gpu, hlib]
  constructor
  · intro h
    rw [hev]
    simp only [dispatchPhase, hnc]
    simp [h]
  · intro h m
    have h2 : ¬ a.maxThreads ≠ 1024 := not_not_intro h
    rw [hev]
    simp only [dispatchPhase, hnc]
    simp [h2]

/-- C7 witness: the concrete strided call with reported capacity 512
raises the fixed failure and submits nothing. -/
theorem c7_threadgroup_check_witness :
    eval_gpu exArgs7 exCollapse
      = EvalOutcome.dispatchError "[Metal::binary] Must use 1024 sized block" :=
  (c7_threadgroup_check_amended exArgs7 exCollapse rfl rfl).1 (by decide)

/-- Helper: the input-binding loop binds the non-constant runtime
inputs, in order, at consecutive slots from its starting counter, and
leaves the counter advanced by their number. -/
theorem inputBindLoop_binds_seq (cids : List Nat) (contiguous : Bool)
    (sAll : List (List Nat)) :
    ∀ (pairs : List (Arr × Arr)) (cnt sidx : Nat),
      (inputBindLoop cids contiguous sAll pairs cnt sidx).binds.map Prod.fst
        = List.range' cnt (nonConstPairs cids pairs).length ∧
      (inputBindLoop cids contiguous sAll pairs cnt sidx).binds.map Prod.snd
        = (nonConstPairs cids pairs).map (fun p => Binding.inArr p.2.id) ∧
      (inputBindLoop cids contiguous sAll pairs cnt sidx).cnt
        = cnt + (nonConstPairs cids pairs).length := by
  intro pairs
  induction pairs with
  | nil => intro cnt sidx; simp [inputBindLoop, nonConstPairs]
  | cons p t ih =>
    intro cnt sidx
    obtain ⟨xc, x⟩ := p
    by_cases hc : isConstantId cids xc
    · have he : inputBindLoop cids contiguous sAll ((xc, x) :: t) cnt sidx
          = inputBindLoop cids contiguous sAll t cnt sidx := by simp [inputBindLoop, hc]
      have hf : nonConstPairs cids ((xc, x) :: t) = nonConstPairs cids t := by
        simp [nonConstPairs, hc]
      rw [he, hf]
      exact ih cnt sidx
    · have hf : nonConstPairs cids ((xc, x) :: t) = (xc, x) :: nonConstPairs cids t := by
        simp [nonConstPairs, hc]
      by_cases hs : (contiguous || is_scalar x) = true
      · have he : inputBindLoop cids contiguous sAll ((xc, x) :: t) cnt sidx
            = ⟨(cnt, Binding.inArr x.id)
                 :: (inputBindLoop cids contiguous sAll t (cnt + 1) sidx).binds,
               (inputBindLoop cids contiguous sAll t (cnt + 1) sidx).cnt,
               (inputBindLoop cids contiguous sAll t (cnt + 1) sidx).inStrides,
               (inputBindLoop cids contiguous sAll t (cnt + 1) sidx).strideIdx⟩ := by
          simp [inputBindLoop, hc, hs]
        obtain ⟨h1, h2, h3⟩ := ih (cnt + 1) sidx
        rw [he, hf]
        refine ⟨?_, ?_, ?_⟩
        · simp only [List.map_cons, List.length_cons, h1, List.range'_succ]
        · simp only [List.map_cons, h2]
        · simp only [h3, List.length_cons]; omega
      · have he : inputBindLoop cids contiguous sAll ((xc, x) :: t) cnt sidx
            = ⟨(cnt, Binding.inArr x.id)
                 :: (inputBindLoop cids contiguous sAll t (cnt + 1) (sidx + 1)).binds,
               (inputBindLoop cids contiguous sAll t (cnt + 1) (sidx + 1)).cnt,
               sAll.getD sidx []
                 ++ (inputBindLoop cids contiguous sAll t (cnt + 1) (sidx + 1)).inStrides,
               (inputBindLoop cids contiguous sAll t (cnt + 1) (sidx + 1)).strideIdx⟩ := by
          simp [inputBindLoop, hc, hs]
        obtain ⟨h1, h2, h3⟩ := ih (cnt + 1) (sidx + 1)
        rw [he, hf]
        refine ⟨?_, ?_, ?_⟩
        · simp only [List.map_cons, List.length_cons, h1, List.range'_succ]
        · simp only [List.map_cons, h2]
        · simp only [h3, List.length_cons]; omega

/-- Helper: consuming one more packed row peels the row at the current
table index. -/
theorem packedRowsFrom_succ (sAll : List (List Nat)) (sidx n : Nat) :
    packedRowsFrom sAll sidx (n + 1) = sAll.getD sidx [] ++ packedRowsFrom sAll (sidx + 1) n := by
  unfold packedRowsFrom
  rw [List.range_succ_eq_map]
  simp only [List.map_cons, List.flatten_cons, Nat.add_zero, List.map_map]
  congr 1
  congr 1
  apply List.map_congr_left
  intro k hk
  simp only [Function.comp_apply]
  congr 1
  omega

/-- Helper: the in_strides vector the input-binding loop packs is the
concatenation of the stride-table rows from its starting index, one row
per non-constant non-scalar input; on the contiguous path it stays
empty. -/
theorem inputBindLoop_inStrides_seq (cids : List Nat) (contiguous : Bool)
    (sAll : List (List Nat)) :
    ∀ (pairs : List (Arr × Arr)) (cnt sidx : Nat),
      (inputBindLoop cids contiguous sAll pairs cnt sidx).inStrides
        = if contiguous then []
          else packedRowsFrom sAll sidx
            (((nonConstPairs cids pairs).filter (fun p => !is_scalar p.2)).length) := by
  intro pairs
  induction pairs with
  | nil =>
    intro cnt sidx
    cases contiguous <;> simp [inputBindLoop, nonConstPairs, packedRowsFrom]
  | cons p t ih =>
    intro cnt sidx
    obtain ⟨xc, x⟩ := p
    by_cases hc : isConstantId cids xc
    · have he : inputBindLoop cids contiguous sAll ((xc, x) :: t) cnt sidx
          = inputBindLoop cids contiguous sAll t cnt sidx := by simp [inputBindLoop, hc]
      have hf : nonConstPairs cids ((xc, x) :: t) = nonConstPairs cids t := by
        simp [nonConstPairs, hc]
      rw [he, hf]
      exact ih cnt sidx
    · have hf : nonConstPairs cids ((xc, x) :: t) = (xc, x) :: nonConstPairs cids t := by
        simp [nonConstPairs, hc]
      rcases Bool.eq_false_or_eq_true contiguous with hco | hco
      all_goals subst hco
      case neg.inl =>
        have he : inputBindLoop cids true sAll ((xc, x) :: t) cnt sidx
            = ⟨(cnt, Binding.inArr x.id)
                 :: (inputBindLoop cids true sAll t (cnt + 1) sidx).binds,
               (inputBindLoop cids true sAll t (cnt + 1) sidx).cnt,
               (inputBindLoop cids true sAll t (cnt + 1) sidx).inStrides,
               (inputBindLoop cids true sAll t (cnt + 1) sidx).strideIdx⟩ := by
          simp [inputBindLoop, hc]
        rw [he]
        simpa using ih (cnt + 1) sidx
      · by_cases hsc : is_scalar x = true
        · have he : inputBindLoop cids false sAll ((xc, x) :: t) cnt sidx
              = ⟨(cnt, Binding.inArr x.id)
                   :: (inputBindLoop cids false sAll t (cnt + 1) sidx).binds,
                 (inputBindLoop cids false sAll t (cnt + 1) sidx).cnt,
                 (inputBindLoop cids false sAll t (cnt + 1) sidx).inStrides,
                 (inputBindLoop cids false sAll t (cnt + 1) sidx).strideIdx⟩ := by
            simp [inputBindLoop, hc, hsc]
          rw [he, hf]
          have hfl : ((xc, x) :: nonConstPairs cids t).filter (fun p => !is_scalar p.2)
              = (nonConstPairs cids t).filter (fun p => !is_scalar p.2) := by
            simp [List.filter_cons, hsc]
          simp only [hfl]
          simpa using ih (cnt + 1) sidx
        · have hsb : (false || is_scalar x) = false := by simp [hsc]
          have he : inputBindLoop cids false sAll ((xc, x) :: t) cnt sidx
              = ⟨(cnt, Binding.inArr x.id)
                   :: (inputBindLoop cids false sAll t (cnt + 1) (sidx + 1)).binds,
                 (inputBindLoop cids false sAll t (cnt + 1) (sidx + 1)).cnt,
                 sAll.getD sidx []
                   ++ (inputBindLoop cids false sAll t (cnt + 1) (sidx + 1)).inStrides,
                 (inputBindLoop cids false sAll t (cnt + 1) (sidx + 1)).strideIdx⟩ := by
            simp [inputBindLoop, hc, hsc]
          rw [he, hf]
          have hfl : ((xc, x) :: nonConstPairs cids t).filter (fun p => !is_scalar p.2)
              = (xc, x) :: (nonConstPairs cids t).filter (fun p => !is_scalar p.2) := by
            simp [List.filter_cons, hsc]
          simp only [hfl, List.length_cons, packedRowsFrom_succ]
          have := ih (cnt + 1) (sidx + 1)
          simp only [if_neg (by simp : ¬ (false = true))] at this
          simp [this]

/-- Helper: with every stride row non-empty and the table long enough,
packing at least one row yields a non-empty in_strides vector. -/
theorem packedRowsFrom_ne_nil (sAll : List (List Nat)) (sidx n : Nat)
    (hrows : ∀ row ∈ sAll, row ≠ []) (hb : sidx + (n + 1) ≤ sAll.length) :
    packedRowsFrom sAll sidx (n + 1) ≠ [] := by
  rw [packedRowsFrom_succ]
  have hlt : sidx < sAll.length := by omega
  have hmem : sAll.getD sidx [] ∈ sAll := by
    rw [List.getD_eq_getElem sAll [] hlt]
    exact List.getElem_mem hlt
  intro hcon
  exact hrows _ hmem (List.append_eq_nil.mp hcon).1

/-- Helper: the output-binding loop binds the outputs, in order, at
consecutive slots from its starting counter. -/
theorem outBinds_seq :
    ∀ (os : List Arr) (cnt : Nat),
      (outBinds os cnt).map Prod.fst = List.range' cnt os.length ∧
      (outBinds os cnt).map Prod.snd = os.map (fun x => Binding.outArr x.id) := by
  intro os
  induction os with
  | nil => intro cnt; simp [outBinds]
  | cons x t ih =>
    intro cnt
    obtain ⟨h1, h2⟩ := ih (cnt + 1)
    constructor
    · simp only [outBinds, List.map_cons, List.length_cons, h1, List.range'_succ]
    · simp only [outBinds, List.map_cons, h2]

/-- Helper: two binding segments with consecutive slot ranges
concatenate to one consecutive slot range. -/
theorem map_fst_range'_append (k : Nat) (l1 l2 : List (Nat × Binding))
    (h1 : l1.map Prod.fst = List.range' k l1.length)
    (h2 : l2.map Prod.fst = List.range' (k + l1.length) l2.length) :
    (l1 ++ l2).map Prod.fst = List.range' k (l1 ++ l2).length := by
  rw [List.map_append, h1, h2, List.length_append]
  have h := List.range'_append k l1.length l2.length 1
  rw [one_mul] at h
  rw [h, Nat.add_comm l2.length l1.length]

/-- Helper: a consecutive pair of slots is a two-element range. -/
theorem range'_pair (s : Nat) : List.range' s 2 = [s, s + 1] := by
  rw [List.range'_succ, List.range'_one]

/-- C8.  The dispatcher binds resources at monotonically increasing
slots starting at 0 with no slot skipped or reused, in exactly the
order: non-constant input buffers in input order, then the input-stride
buffer exactly when the call is non-contiguous and some non-scalar
non-constant input exists, then the output buffers, then the
output-stride and output-shape buffers when non-contiguous, then the
rank scalar when dynamic. -/
theorem c8_binding_order (cids : List Nat) (pairs : List (Arr × Arr)) (outputs : List Arr)
    (contiguous : Bool) (stridesAll : List (List Nat)) (shape : List Nat)
    (dynamic : Bool) (ndim : Nat)
    (hrows : ∀ row ∈ stridesAll, row ≠ [])
    (hlen : 1 + ((nonConstPairs cids pairs).filter (fun p => !is_scalar p.2)).length
      ≤ stridesAll.length) :
    (mkBindings cids pairs outputs contiguous stridesAll shape dynamic ndim).map Prod.fst
      = List.range
          (mkBindings cids pairs outputs contiguous stridesAll shape dynamic ndim).length ∧
    (mkBindings cids pairs outputs contiguous stridesAll shape dynamic ndim).map Prod.snd
      = ((nonConstPairs cids pairs).map (fun p => Binding.inArr p.2.id))
        ++ (if contiguous = false
              ∧ (nonConstPairs cids pairs).any (fun p => !is_scalar p.2) = true
            then [Binding.inStridesBytes (packedRowsFrom stridesAll 1
                    (((nonConstPairs cids pairs).filter (fun p => !is_scalar p.2)).length))]
            else [])
        ++ (outputs.map (fun x => Binding.outArr x.id))
        ++ (if contiguous then []
            else [Binding.outStridesBytes (stridesAll.getD 0 []),
                  Binding.outShapeBytes shape])
        ++ (if dynamic then [Binding.ndimBytes ndim] else []) := by
  obtain ⟨hA1, hA2, hA3⟩ := inputBindLoop_binds_seq cids contiguous stridesAll pairs 0 1
  have hIS := inputBindLoop_inStrides_seq cids contiguous stridesAll pairs 0 1
  have hblen : (inputBindLoop cids contiguous stridesAll pairs 0 1).binds.length
      = (nonConstPairs cids pairs).length := by
    simpa using congrArg List.length hA2
  have houtlen : ∀ c : Nat, (outBinds outputs c).length = outputs.length := by
    intro c
    simpa using congrArg List.length (outBinds_seq outputs c).2
  have hany_iff : (nonConstPairs cids pairs).any (fun p => !is_scalar p.2) = true
      ↔ 0 < ((nonConstPairs cids pairs).filter (fun p => !is_scalar p.2)).length := by
    rw [List.any_eq_true]
    constructor
    · rintro ⟨x, hx, hpx⟩
      exact List.length_pos.mpr (List.ne_nil_of_mem (List.mem_filter.mpr ⟨hx, hpx⟩))
    · intro h
      obtain ⟨x, hx⟩ := List.exists_mem_of_length_pos h
      obtain ⟨h1, h2⟩ := List.mem_filter.mp hx
      exact ⟨x, h1, h2⟩
  simp only [mkBindings]
  set L := inputBindLoop cids contiguous stridesAll pairs 0 1 with hLdef
  set c2 := if L.inStrides.isEmpty then L.cnt else L.cnt + 1 with hc2
  set l2 := if L.inStrides.isEmpty then ([] : List (Nat × Binding))
      else [(L.cnt, Binding.inStridesBytes L.inStrides)] with hl2
  set l4 := if contiguous then ([] : List (Nat × Binding))
      else [(c2 + outputs.length, Binding.outStridesBytes (stridesAll.getD 0 [])),
            (c2 + outputs.length + 1, Binding.outShapeBytes shape)] with hl4
  set c4 := if contiguous then c2 + outputs.length else c2 + outputs.length + 2 with hc4
  set l5 := if dynamic then [(c4, Binding.ndimBytes ndim)]
      else ([] : List (Nat × Binding)) with hl5
  have hl2len : l2.length = if L.inStrides.isEmpty then 0 else 1 := by
    rw [hl2]; cases hE : L.inStrides.isEmpty <;> simp
  have hl4len : l4.length = if contiguous then 0 else 2 := by
    rw [hl4]; cases hq : contiguous <;> simp
  have hc2' : c2 = L.binds.length + l2.length := by
    rw [hc2, hl2len]
    cases hE : L.inStrides.isEmpty <;> simp <;> omega
  have f1 : L.binds.map Prod.fst = List.range' 0 L.binds.length := by
    rw [hA1, hblen]
  have f2 : l2.map Prod.fst = List.range' (0 + L.binds.length) l2.length := by
    rw [hl2]
    cases hE : L.inStrides.isEmpty <;> simp [List.range'_one] <;> omega
  have f12 := map_fst_range'_append 0 _ _ f1 f2
  have f3 : (outBinds outputs c2).map Prod.fst
      = List.range' (0 + (L.binds ++ l2).length) (outBinds outputs c2).length := by
    rw [(outBinds_seq outputs c2).1, houtlen c2]
    congr 1
    rw [List.length_append]
    omega
  have f123 := map_fst_range'_append 0 _ _ f12 f3
  have f4 : l4.map Prod.fst
      = List.range' (0 + (L.binds ++ l2 ++ outBinds outputs c2).length) l4.length := by
    rw [hl4]
    cases hq : contiguous <;>
      simp [range'_pair, List.length_append, houtlen] <;> omega
  have f1234 := map_fst_range'_append 0 _ _ f123 f4
  have f5 : l5.map Prod.fst
      = List.range' (0 + (L.binds ++ l2 ++ outBinds outputs c2 ++ l4).length) l5.length := by
    rw [hl5, hc4]
    cases hqd : dynamic <;>
      simp [List.range'_one, List.length_append, houtlen, hl4len] <;>
      cases hqc : contiguous <;> simp <;> omega
  have ftot := map_fst_range'_append 0 _ _ f1234 f5
  constructor
  · rw [ftot, List.range_eq_range']
  · have s2 : l2.map Prod.snd
        = (if contiguous = false
              ∧ (nonConstPairs cids pairs).any (fun p => !is_scalar p.2) = true
           then [Binding.inStridesBytes (packedRowsFrom stridesAll 1
                  (((nonConstPairs cids pairs).filter (fun p => !is_scalar p.2)).length))]
           else []) := by
      rw [hl2]
      rcases Bool.eq_false_or_eq_true contiguous with hq | hq
      · rw [hq] at hIS
        simp only [if_pos] at hIS
        simp [hIS, hq]
      · rw [hq] at hIS
        simp only [if_neg (by simp : ¬ (false = true))] at hIS
        cases hcn : ((nonConstPairs cids pairs).filter (fun p => !is_scalar p.2)).length with
        | zero =>
          rw [hcn] at hIS
          have hz : packedRowsFrom stridesAll 1 0 = [] := rfl
          rw [hz] at hIS
          have hanyf : (nonConstPairs cids pairs).any (fun p => !is_scalar p.2) = false := by
            rcases Bool.eq_false_or_eq_true
              ((nonConstPairs cids pairs).any (fun p => !is_scalar p.2)) with ha | ha
            · have hp := hany_iff.mp ha
              rw [hcn] at hp
              exact absurd hp (by omega)
            · exact ha
          simp [hIS, hq, hanyf]
        | succ m =>
          rw [hcn] at hIS hlen
          have hne : packedRowsFrom stridesAll 1 (m + 1) ≠ [] :=
            packedRowsFrom_ne_nil stridesAll 1 m hrows (by omega)
          have hisE : L.inStrides.isEmpty = false := by
            rw [hIS]
            simpa [List.isEmpty_iff] using hne
          have hanyt : (nonConstPairs cids pairs).any (fun p => !is_scalar p.2) = true := by
            rw [hany_iff, hcn]
            omega
          rw [hisE, hIS]
          simp [hq, hanyt, hcn]
    have s4 : l4.map Prod.snd
        = (if contiguous then []
           else [Binding.outStridesBytes (stridesAll.getD 0 []),
                 Binding.outShapeBytes shape]) := by
      rw [hl4]; cases hq : contiguous <;> simp
    have s5 : l5.map Prod.snd = (if dynamic then [Binding.ndimBytes ndim] else []) := by
      rw [hl5]; cases hq : dynamic <;> simp
    simp only [List.map_append, hA2, s2, (outBinds_seq outputs c2).2, s4, s5]

/-- C8 witness: a concrete strided call with two non-constant non-scalar
inputs and one output binds slots 0, 1, 2, ... consecutively. -/
theorem c8_binding_order_witness :
    (mkBindings [] [(exArr0, exArr0), (exArr1, exArr1)] [exOut] false
        [[2, 1], [2, 1], [1, 2]] [2, 2] false 2).map Prod.fst
      = List.range (mkBindings [] [(exArr0, exArr0), (exArr1, exArr1)] [exOut] false
          [[2, 1], [2, 1], [1, 2]] [2, 2] false 2).length :=
  (c8_binding_order [] [(exArr0, exArr0), (exArr1, exArr1)] [exOut] false
      [[2, 1], [2, 1], [1, 2]] [2, 2] false 2 (by decide) (by decide)).1

/-- Helper: every input-buffer binding of the loop comes from a
non-constant pair, binding the runtime array of that pair. -/
theorem inputBindLoop_binds_mem_snd (cids : List Nat) (contiguous : Bool)
    (sAll : List (List Nat)) (pairs : List (Arr × Arr)) (cnt sidx : Nat)
    (b : Nat × Binding) (hb : b ∈ (inputBindLoop cids contiguous sAll pairs cnt sidx).binds) :
    ∃ p ∈ nonConstPairs cids pairs, b.2 = Binding.inArr p.2.id := by
  have hmem : b.2 ∈ ((inputBindLoop cids contiguous sAll pairs cnt sidx).binds).map Prod.snd :=
    List.mem_map_of_mem Prod.snd hb
  rw [(inputBindLoop_binds_seq cids contiguous sAll pairs cnt sidx).2.1] at hmem
  obtain ⟨p, hp, he⟩ := List.mem_map.mp hmem
  exact ⟨p, hp, he.symm⟩

/-- Helper: the load-classification loop maps a constant input at
position k to the inlined-constant load, whatever the counter. -/
theorem loadSpecsGo_getElem_const (cids : List Nat) (contiguous : Bool) (ndim : Nat)
    (dyn : Bool) :
    ∀ (l : List Arr) (nc k : Nat) (y : Arr), l[k]? = some y → isConstantId cids y = true →
      (loadSpecsGo cids contiguous ndim dyn l nc)[k]? = some LoadSpec.constL := by
  intro l
  induction l with
  | nil => intro nc k y h _; simp at h
  | cons a t ih =>
    intro nc k y hk hc
    cases k with
    | zero =>
      rw [List.getElem?_cons_zero, Option.some.injEq] at hk
      subst hk
      simp [loadSpecsGo, hc]
    | succ k =>
      rw [List.getElem?_cons_succ] at hk
      have hshape : ∃ sp nc', loadSpecsGo cids contiguous ndim dyn (a :: t) nc
          = sp :: loadSpecsGo cids contiguous ndim dyn t nc' := by
        by_cases h1 : isConstantId cids a
        · exact ⟨LoadSpec.constL, nc, by simp [loadSpecsGo, h1]⟩
        · by_cases h2 : is_scalar a
          · exact ⟨LoadSpec.scalarL, nc, by simp [loadSpecsGo, h1, h2]⟩
          · rcases Bool.eq_false_or_eq_true contiguous with h3 | h3
            · subst h3
              exact ⟨LoadSpec.contigL, nc, by simp [loadSpecsGo, h1, h2]⟩
            · subst h3
              rcases Bool.eq_false_or_eq_true dyn with h4 | h4
              · subst h4
                exact ⟨LoadSpec.dynL (nc * ndim), nc + 1, by simp [loadSpecsGo, h1, h2]⟩
              · subst h4
                exact ⟨LoadSpec.staticL (nc * ndim), nc + 1, by simp [loadSpecsGo, h1, h2]⟩
      obtain ⟨sp, nc', hsh⟩ := hshape
      rw [hsh, List.getElem?_cons_succ]
      exact ih nc' k y hk hc

/-- C9.  A constant-set input is never a kernel parameter, is never
bound to any argument slot at dispatch, contributes no row to the packed
input-stride vector (whose rows range over the non-constant non-scalar
inputs only), and its load is the inlined typed literal
static_cast of print_constant output. -/
theorem c9_constants_never_bound
    (inputs outputs : List Arr) (cids : List Nat) (contiguous : Bool) (ndim : Nat) (dyn : Bool)
    (x : Arr) (hx : x ∈ inputs) (hcx : isConstantId cids x = true)
    (hnodup : (inputs.map Arr.id).Nodup)
    (pairs : List (Arr × Arr)) (stridesAll : List (List Nat)) (shape : List Nat)
    (dynb : Bool) (nd2 : Nat)
    (xc xr : Arr) (hp : (xc, xr) ∈ pairs) (hcc : isConstantId cids xc = true)
    (hnd2 : (pairs.map (fun p => p.2.id)).Nodup) :
    (∀ dt, Param.inBuf x.id dt ∉ kernelParams inputs outputs cids contiguous dyn) ∧
    (∀ b ∈ mkBindings cids pairs outputs contiguous stridesAll shape dynb nd2,
      b.2 ≠ Binding.inArr xr.id) ∧
    ((inputBindLoop cids contiguous stridesAll pairs 0 1).inStrides
      = if contiguous then []
        else packedRowsFrom stridesAll 1
          (((nonConstPairs cids pairs).filter (fun p => !is_scalar p.2)).length)) ∧
    (∀ (k : Nat) (y : Arr), inputs[k]? = some y → isConstantId cids y = true →
      (loadSpecs inputs cids contiguous ndim dyn)[k]? = some LoadSpec.constL) ∧
    (∀ y : Arr, loadLine ndim y LoadSpec.constL
      = "  auto tmp_" ++ nodeName y.id ++ " = static_cast<" ++ y.dtypeStr ++ ">("
        ++ y.constLit ++ ");\n") := by
  refine ⟨?_, ?_, inputBindLoop_inStrides_seq cids contiguous stridesAll pairs 0 1,
    fun k y hk hc => loadSpecsGo_getElem_const cids contiguous ndim dyn inputs 0 k y hk hc,
    fun y => rfl⟩
  · intro dt hmem
    simp only [kernelParams, List.mem_append] at hmem
    rcases hmem with (((h1 | h2) | h3) | h4) | h5
    · obtain ⟨y, hy, hye⟩ := List.mem_map.mp h1
      obtain ⟨hyi, hyc⟩ := List.mem_filter.mp hy
      rw [Param.inBuf.injEq] at hye
      have hxy : y = x := List.inj_on_of_nodup_map hnodup hyi hx hye.1
      rw [hxy, hcx] at hyc
      simp at hyc
    · rcases Bool.eq_false_or_eq_true (add_indices_flag inputs cids contiguous) with ha | ha <;>
        simp [ha] at h2
    · obtain ⟨y, _, hye⟩ := List.mem_map.mp h3
      simp at hye
    · rcases Bool.eq_false_or_eq_true contiguous with ha | ha <;> subst ha <;> simp at h4
    · rcases Bool.eq_false_or_eq_true dyn with ha | ha <;> subst ha <;> simp at h5
  · intro b hb hbe
    simp only [mkBindings] at hb
    rcases List.mem_append.mp hb with hb4 | hb5
    · rcases List.mem_append.mp hb4 with hb3 | hbos
      · rcases List.mem_append.mp hb3 with hb2 | hbo
        · rcases List.mem_append.mp hb2 with hb1 | hbs
          · obtain ⟨p, hpmem, hpe⟩ := inputBindLoop_binds_mem_snd cids contiguous stridesAll
              pairs 0 1 b hb1
            rw [hbe, Binding.inArr.injEq] at hpe
            have hpp : p = (xc, xr) :=
              List.inj_on_of_nodup_map hnd2 (List.mem_of_mem_filter hpmem) hp hpe.symm
            have hncp := (List.mem_filter.mp hpmem).2
            rw [hpp] at hncp
            simp [hcc] at hncp
          · revert hbs
            split
            · intro hbs; simp at hbs
            · intro hbs
              rw [List.mem_singleton] at hbs
              rw [hbs] at hbe
              simp at hbe
        · obtain ⟨id, hide⟩ := outBinds_kinds outputs _ b hbo
          rw [hide] at hbe
          simp at hbe
      · revert hbos
        split
        · intro hbos; simp at hbos
        · intro hbos
          rcases List.mem_cons.mp hbos with h | h
          · rw [h] at hbe; simp at hbe
          · rw [List.mem_singleton] at h
            rw [h] at hbe
            simp at hbe
    · revert hb5
      split
      · intro hb5
        rw [List.mem_singleton] at hb5
        rw [hb5] at hbe
        simp at hbe
      · intro hb5; simp at hb5

/-- C9 witness: in the concrete call with constant input of identity 5,
the load classification at position 0 is the inlined constant. -/
theorem c9_constants_never_bound_witness :
    (loadSpecs [exConst, exArr0] [5] false 2 false)[0]? = some LoadSpec.constL :=
  (c9_constants_never_bound [exConst, exArr0] [exOut] [5] false 2 false exConst
      (by decide) (by decide) (by decide)
      [(exConst, exConst), (exArr0, exArr0)] [[2, 1], [2, 1]] [2, 2] false 2
      exConst exConst (by decide) (by decide) (by decide)).2.2.2.1 0 exConst rfl rfl

end Mlx

